import Mathlib

/-!
Verification of the Tool-Box repository (main.py, query_generator.py)
against its natural-language specification.

The Python code is shallowly embedded: text is modelled as `List Char`
(with `String` wrappers where convenient), the regular-expression
substitutions of `clean_sql_query` are implemented as direct scanning
functions matching Python `re.sub` semantics, HTTP failures
(`HTTPException(status, detail)`) are modelled as the `HtErr` error of an
`Except`, and calls to external services (database drivers, LLM endpoint,
search, HTML fetch/parse) are parameters of the handler functions, so a
handler is a function of the outcomes of the external calls it makes.
-/

namespace ToolBox

/-! ### Basic text utilities (Python semantics) -/

/-- Python's `\s` / `str.strip` whitespace class, restricted to ASCII:
space, tab, newline, carriage return, vertical tab, form feed. -/
def pyIsSpace (c : Char) : Bool :=
  c == ' ' || c == '\t' || c == '\n' || c == '\r' || c == Char.ofNat 0x0b || c == Char.ofNat 0x0c

/-- The backtick character, U+0060. -/
def btick : Char := Char.ofNat 0x60

/-- Drop the leading run of whitespace (greedy `\s*` at the front). -/
def dropWs (s : List Char) : List Char := s.dropWhile pyIsSpace

/-- Remove the trailing run of whitespace. -/
def rstripWs : List Char → List Char
  | [] => []
  | c :: cs =>
    match rstripWs cs with
    | [] => if pyIsSpace c then [] else [c]
    | r => c :: r

/-- Python `str.strip`: remove leading and trailing whitespace. -/
def stripStr (s : List Char) : List Char := rstripWs (dropWs s)

/-- Python `str.strip` on a `String`. -/
def pyStripS (s : String) : String := (stripStr s.toList).asString

/-- Python `str.lower`, character-wise. -/
def lowerChars (s : List Char) : List Char := s.map Char.toLower

/-- `hasPre pat s`: `pat` is a prefix of `s`. -/
def hasPre : List Char → List Char → Bool
  | [], _ => true
  | _ :: _, [] => false
  | p :: ps, c :: cs => p == c && hasPre ps cs

/-- Python's `pat in s` substring test. -/
def isSubstr : List Char → List Char → Bool
  | pat, [] => pat.isEmpty
  | pat, c :: cs => hasPre pat (c :: cs) || isSubstr pat cs

/-- Number of positions of `s` at which `pat` occurs as a substring. -/
def countSubChars : List Char → List Char → Nat
  | pat, [] => if pat.isEmpty then 1 else 0
  | pat, c :: cs => (if hasPre pat (c :: cs) then 1 else 0) + countSubChars pat cs

/-- Every character is whitespace (true for the empty list). -/
def allWsChars (s : List Char) : Bool := s.all pyIsSpace

/-- No two adjacent whitespace characters. -/
def noAdjWs : List Char → Bool
  | a :: b :: t => !(pyIsSpace a && pyIsSpace b) && noAdjWs (b :: t)
  | _ => true

/-- Every whitespace character is a plain space. -/
def allWsSp (s : List Char) : Bool := s.all fun c => !pyIsSpace c || c == ' '

/-- The first character, if any, is not whitespace. -/
def headNotWs : List Char → Bool
  | [] => true
  | c :: _ => !pyIsSpace c

/-- The last character, if any, is not whitespace. -/
def lastNotWs (s : List Char) : Bool :=
  match s.getLast? with
  | none => true
  | some c => !pyIsSpace c

/-- Whitespace is fully normalized: every whitespace character is a single
space, no two are adjacent, and none occurs at either end. -/
def collapsedWsOk (s : List Char) : Bool :=
  allWsSp s && noAdjWs s && headNotWs s && lastNotWs s

/-! ### `clean_sql_query` (query_generator.py lines 53-58)

The Python function applies three substitutions in order and strips:
re.sub(r'```sql\s*|\s*```', '', q, flags=IGNORECASE);
re.sub(r';\s*$', '', _); re.sub(r'\s+', ' ', _); and `.strip()`.
-/

/-- The list starts with three backticks. -/
def startsFence : List Char → Bool
  | a :: b :: c :: _ => a == btick && b == btick && c == btick
  | _ => false

/-- The list contains three consecutive backticks somewhere. -/
def hasTriple : List Char → Bool
  | [] => false
  | c :: t => startsFence (c :: t) || hasTriple t

/-- First alternative of the fence regex: literal triple backtick, then
`sql` case-insensitively, then greedy `\s*`; returns the rest on a match. -/
def matchFenceSql : List Char → Option (List Char)
  | a :: b :: c :: d :: e :: f :: rest =>
    if a == btick && b == btick && c == btick
       && d.toLower == 's' && e.toLower == 'q' && f.toLower == 'l'
    then some (dropWs rest) else none
  | _ => none

/-- Second alternative of the fence regex: greedy `\s*` then a literal
triple backtick (the whitespace run cannot contain a backtick, so greedy
matching with no backtracking is exact); returns the rest on a match. -/
def matchWsFence (s : List Char) : Option (List Char) :=
  if startsFence (dropWs s) then some ((dropWs s).drop 3) else none

/-- Leftmost non-overlapping scan of `re.sub(r'```sql\s*|\s*```', '', q)`:
at each position try the first alternative, then the second, else keep the
character.  The fuel argument bounds recursion; each step consumes at least
one character, so `fuel = length` suffices and `fuel = 0` is unreachable
when started that way. -/
def removeFencesF : Nat → List Char → List Char
  | 0, s => s
  | _ + 1, [] => []
  | fuel + 1, c :: cs =>
    match matchFenceSql (c :: cs) with
    | some rest => removeFencesF fuel rest
    | none =>
      match matchWsFence (c :: cs) with
      | some rest => removeFencesF fuel rest
      | none => c :: removeFencesF fuel cs

/-- The first substitution of `clean_sql_query`. -/
def removeFences (s : List Char) : List Char := removeFencesF s.length s

/-- `re.sub(r';\s*$', '', s)`: the regex matches exactly when every
character after some `;` is whitespace; the (single, final) `;` and the
trailing whitespace are removed, otherwise the string is unchanged. -/
def stripTrailingSemi (s : List Char) : List Char :=
  let r := rstripWs s
  if r.getLast? = some ';' then r.dropLast else s

/-- `re.sub(r'\s+', ' ', s)`: collapse every maximal whitespace run into a
single space. -/
def collapseWs : List Char → List Char
  | [] => []
  | [c] => if pyIsSpace c then [' '] else [c]
  | a :: b :: t =>
    if pyIsSpace a then
      (if pyIsSpace b then collapseWs (b :: t) else ' ' :: collapseWs (b :: t))
    else a :: collapseWs (b :: t)

/-- `clean_sql_query` on character lists: the three substitutions in the
source order, then `.strip()`. -/
def cleanChars (s : List Char) : List Char :=
  stripStr (collapseWs (stripTrailingSemi (removeFences s)))

/-- `clean_sql_query` (query_generator.py lines 53-58). -/
def clean_sql_query (q : String) : String := (cleanChars q.toList).asString

/-! ### HTTP error model

`raise HTTPException(status_code, detail)` is modelled as `Except.error`
carrying the status code and detail text; a normal `return` is
`Except.ok`. -/

/-- A FastAPI `HTTPException(status_code, detail)`. -/
structure HtErr where
  status : Nat
  detail : String
deriving DecidableEq

deriving instance DecidableEq for Except

/-! ### main.py: /greet -/

/-- `get_greeting` (main.py lines 59-75) with an explicitly supplied hour
(the `request.hour is None` branch reads the wall clock and is outside the
claims).  Pydantic's `Optional[int]` makes the hour a (mathematical)
integer. -/
def get_greeting (hour : Int) : Except HtErr String :=
  if ¬ (0 ≤ hour ∧ hour ≤ 23) then .error ⟨400, "Hour must be between 0 and 23."⟩
  else if 5 ≤ hour ∧ hour < 12 then .ok "Good morning!"
  else if 12 ≤ hour ∧ hour < 18 then .ok "Good afternoon!"
  else if 18 ≤ hour ∧ hour < 22 then .ok "Good evening!"
  else .ok "Good night!"

/-! ### main.py: /process -/

/-- Emoji for "morning" (the source file stores each emoji as a short
sequence of non-ASCII characters; each is reproduced here by its exact
code points). -/
def emMorning : List Char := [Char.ofNat 0xe2, Char.ofNat 0x2dc, Char.ofNat 0x20ac, Char.ofNat 0xef, Char.ofNat 0xb8]

/-- Emoji for "afternoon". -/
def emAfternoon : List Char := [Char.ofNat 0x11f, Char.ofNat 0x178, Char.ofNat 0x152, Char.ofNat 0xa4, Char.ofNat 0xef, Char.ofNat 0xb8]

/-- Emoji for "evening". -/
def emEvening : List Char := [Char.ofNat 0x11f, Char.ofNat 0x178, Char.ofNat 0x152, Char.ofNat 0x2122]

/-- Emoji for "night". -/
def emNight : List Char := [Char.ofNat 0x11f, Char.ofNat 0x178, Char.ofNat 0x152, Char.ofNat 0x153]

/-- Emoji for "hello". -/
def emHello : List Char := [Char.ofNat 0x11f, Char.ofNat 0x178, Char.ofNat 0x2018, Char.ofNat 0x2039]

/-- Emoji for "hi". -/
def emHi : List Char := [Char.ofNat 0x11f, Char.ofNat 0x178, Char.ofNat 0x2dc, Char.ofNat 0x160]

/-- Emoji for "hey". -/
def emHey : List Char := [Char.ofNat 0x11f, Char.ofNat 0x178, Char.ofNat 0x2122, Char.ofNat 0x152]

/-- Fallback emoji (the second argument of `next(...)`). -/
def emSparkle : List Char := [Char.ofNat 0xe2, Char.ofNat 0x153, Char.ofNat 0xa8]

/-- `EMOJI_MAP` (main.py lines 32-40).  Python dicts preserve insertion
order, so the keyword/emoji pairs are a list in declaration order. -/
def EMOJI_MAP : List (List Char × List Char) :=
  [("morning".toList, emMorning),
   ("afternoon".toList, emAfternoon),
   ("evening".toList, emEvening),
   ("night".toList, emNight),
   ("hello".toList, emHello),
   ("hi".toList, emHi),
   ("hey".toList, emHey)]

/-- `next((emoji for keyword, emoji in EMOJI_MAP.items() if keyword in
text.lower()), sparkle)`: the emoji of the first map entry whose keyword
occurs in the lowercased text, else the sparkle fallback. -/
def chosenEmoji (low : List Char) : List Char :=
  ((EMOJI_MAP.find? fun kv => isSubstr kv.1 low).map Prod.snd).getD emSparkle

/-- `process_text` (main.py lines 79-85): strip, reject empty, append the
chosen emoji to the stripped text. -/
def process_text (text : String) : Except HtErr String :=
  let t := stripStr text.toList
  if t = [] then .error ⟨400, "Text cannot be empty."⟩
  else .ok ((t ++ ' ' :: chosenEmoji (lowerChars t)).asString)

/-! ### main.py: /search -/

/-- `for i, url in enumerate(...)` producing `{"id": i + 1, "url": url}`:
the accumulator is the current index `i`. -/
def enumerate1 : Nat → List String → List (Nat × String)
  | _, [] => []
  | i, u :: us => (i + 1, u) :: enumerate1 (i + 1) us

/-- Pydantic's `num_results: Optional[int] = 5`: an omitted field gets 5. -/
def numResultsOrDefault (provided : Option Int) : Int := provided.getD 5

/-- `web_search` (main.py lines 89-104).  The external
`googlesearch.search(query, num_results, lang="en")` call is the
parameter `sf`; the handler strips the query, rejects an empty query,
rejects `num_results` outside `[1, 20]`, and otherwise enumerates the
search results with 1-based ids. -/
def web_search (sf : String → Int → List String) (query : String)
    (num_results : Int) : Except HtErr (List (Nat × String)) :=
  let q := pyStripS query
  if q = "" then .error ⟨400, "Search query cannot be empty."⟩
  else if ¬ (1 ≤ num_results ∧ num_results ≤ 20) then
    .error ⟨400, "Number of results must be between 1 and 20."⟩
  else .ok (enumerate1 0 (sf q num_results))

/-! ### main.py: the three scrapers

`fetch_html` (the ScraperAPI HTTP round trip) and the BeautifulSoup
extraction of product cards are external effects; they are the `fetchHtml`
and `parse` parameters.  `urllib.parse.quote` is the `quote` parameter. -/

/-- One scraped product record. -/
structure Product where
  product_name : String
  price : String
  url : String
deriving DecidableEq

/-- `scrape_amazon` (main.py lines 119-150): strip the item name, reject
empty, fetch the search page, parse product cards; an empty card list is a
200 with a message, otherwise the parsed products. -/
def scrape_amazon (quote : String → String)
    (fetchHtml : String → Except HtErr String)
    (parse : String → List Product) (item_name : String) :
    Except HtErr (List Product × Option String) :=
  let n := pyStripS item_name
  if n = "" then .error ⟨400, "Item name cannot be empty."⟩
  else
    match fetchHtml ("https://www.amazon.com/s?k=" ++ quote n) with
    | .error e => .error e
    | .ok html =>
      let ps := parse html
      if ps = [] then .ok ([], some "No products found on Amazon.")
      else .ok (ps, none)

/-- `scrape_walmart` (main.py lines 154-205), same shape as Amazon. -/
def scrape_walmart (quote : String → String)
    (fetchHtml : String → Except HtErr String)
    (parse : String → List Product) (item_name : String) :
    Except HtErr (List Product × Option String) :=
  let n := pyStripS item_name
  if n = "" then .error ⟨400, "Item name cannot be empty."⟩
  else
    match fetchHtml ("https://www.walmart.com/search?q=" ++ quote n) with
    | .error e => .error e
    | .ok html =>
      let ps := parse html
      if ps = [] then .ok ([], some "No products found on Walmart.")
      else .ok (ps, none)

/-- `scrape_target` (main.py lines 210-239): as the others, but only the
first 10 parsed cards are returned (`product_cards[:10]`). -/
def scrape_target (quote : String → String)
    (fetchHtml : String → Except HtErr String)
    (parse : String → List Product) (item_name : String) :
    Except HtErr (List Product × Option String) :=
  let n := pyStripS item_name
  if n = "" then .error ⟨400, "Item name cannot be empty."⟩
  else
    match fetchHtml ("https://www.target.com/s?searchTerm=" ++ quote n) with
    | .error e => .error e
    | .ok html =>
      let ps := parse html
      if ps = [] then .ok ([], some "No products found on Target.")
      else .ok (ps.take 10, none)

/-! ### query_generator.py: configuration and request models -/

/-- `DBConfig` (query_generator.py lines 37-46); the handlers convert it
with `.dict(exclude_unset=True)`, so absent fields are `none`.  The
credentials JSON object is opaque here (only its presence matters). -/
structure DBConfig where
  db_type : Option String := none
  host : Option String := none
  database : Option String := none
  user : Option String := none
  password : Option String := none
  port : Option String := none
  project_id : Option String := none
  credentials_path : Option String := none
  credentials_json : Option String := none
deriving DecidableEq

/-- `DEFAULT_POSTGRES_CONFIG` (query_generator.py lines 29-35), with the
`os.getenv` fallbacks as values (the environment is external; only the
absence of a `db_type` key matters to the claims). -/
def DEFAULT_POSTGRES_CONFIG : DBConfig :=
  { host := some "localhost", database := some "your_database",
    user := some "your_user", password := some "your_password",
    port := some "5432" }

/-- `QueryInput` (query_generator.py lines 48-51). -/
structure QueryInput where
  natural_language_query : String
  schema_context : Option String := none
  db_config : Option DBConfig := none

/-- `if not db_config.get("db_type"): db_config["db_type"] = "postgres"`:
a missing or empty (falsy) engine kind is replaced by `"postgres"`. -/
def withDbType (c : DBConfig) : DBConfig :=
  match c.db_type with
  | none => { c with db_type := some "postgres" }
  | some t => if t = "" then { c with db_type := some "postgres" } else c

/-- The connection configuration a handler works with: the request's
`db_config` if given, else the default, with the engine kind defaulted. -/
def effectiveConfig (inp : QueryInput) : DBConfig :=
  withDbType (inp.db_config.getD DEFAULT_POSTGRES_CONFIG)

/-- `db_config.get("db_type", "postgres")`, as used at each dispatch
point. -/
def dbTypeOf (cfg : DBConfig) : String := cfg.db_type.getD "postgres"

/-- Python's `f"{x}"` on an `Optional[str]`: `None` prints as `"None"`. -/
def optStr : Option String → String
  | none => "None"
  | some s => s

/-! ### query_generator.py: engine-kind dispatchers (lines 122-130,
219-227, 271-279)

The engine-specific bodies (`get_postgres_schema`, `validate_postgres_query`,
`fetch_bigquery_data`, ...) open network connections; each dispatcher takes
them as the parameters `pg` and `bq`, so "never attempts a connection" is
"the result does not depend on `pg`/`bq`". -/

/-- `get_db_schema` (lines 122-130). -/
def get_db_schema (pg bq : DBConfig → Except HtErr String) (cfg : DBConfig) :
    Except HtErr String :=
  let dt := dbTypeOf cfg
  if dt = "postgres" then pg cfg
  else if dt = "bigquery" then bq cfg
  else .error ⟨400, "Unsupported db_type: " ++ dt⟩

/-- `validate_query` (lines 219-227). -/
def validate_query (pg bq : String → DBConfig → Except HtErr (Bool × Option String))
    (query : String) (cfg : DBConfig) : Except HtErr (Bool × Option String) :=
  let dt := dbTypeOf cfg
  if dt = "postgres" then pg query cfg
  else if dt = "bigquery" then bq query cfg
  else .error ⟨400, "Unsupported db_type: " ++ dt⟩

/-- `fetch_query_data` (lines 271-279); the row type is abstract. -/
def fetch_query_data {ρ : Type} (pg bq : String → DBConfig → Except HtErr ρ)
    (query : String) (cfg : DBConfig) : Except HtErr ρ :=
  let dt := dbTypeOf cfg
  if dt = "postgres" then pg query cfg
  else if dt = "bigquery" then bq query cfg
  else .error ⟨400, "Unsupported db_type: " ++ dt⟩

/-! ### query_generator.py: the validators (lines 177-217)

Each validator wraps its whole body in `try/except` clauses that all
`return`; the embedding's input is which outcome the wrapped driver calls
had (success, a driver-classified query error, or any other exception,
with the exception text). -/

/-- Outcome of the `asyncpg` connect/EXPLAIN calls inside
`validate_postgres_query`. -/
inductive PgOutcome where
  | succeeds
  | pgError (msg : String)
  | otherError (msg : String)
deriving DecidableEq

/-- `validate_postgres_query` (lines 177-189): success returns
`(True, None)`; `asyncpg.exceptions.PostgresError` returns
`(False, str(e))`; any other exception returns `(False, "PostgreSQL
connection error: " + str(e))`.  No branch raises. -/
def validate_postgres_query (o : PgOutcome) : Except HtErr (Bool × Option String) :=
  match o with
  | .succeeds => .ok (true, none)
  | .pgError m => .ok (false, some m)
  | .otherError m => .ok (false, some ("PostgreSQL connection error: " ++ m))

/-- Outcome of the BigQuery client construction and dry-run call inside
`validate_bigquery_query`.  `missingProject` is the in-body
`raise HTTPException(400, "project_id is required for BigQuery")`, which
the function's own `except Exception` clause catches
(`str(HTTPException(400, d))` is `"400: " + d`). -/
inductive BqOutcome where
  | succeeds
  | missingProject
  | gcError (msg : String)
  | otherError (msg : String)
deriving DecidableEq

/-- `validate_bigquery_query` (lines 191-217): success returns
`(True, None)`; `GoogleCloudError` returns `(False, str(e))`; any other
exception (including the function's own missing-`project_id`
`HTTPException`) returns `(False, "BigQuery error: " + str(e))`.  No
branch raises. -/
def validate_bigquery_query (o : BqOutcome) : Except HtErr (Bool × Option String) :=
  match o with
  | .succeeds => .ok (true, none)
  | .missingProject =>
    .ok (false, some ("BigQuery error: " ++ "400: project_id is required for BigQuery"))
  | .gcError m => .ok (false, some m)
  | .otherError m => .ok (false, some ("BigQuery error: " ++ m))

/-! ### query_generator.py: the /generate_query and /fetch_data handlers
(lines 281-344)

The stage functions — schema fetch (`get_db_schema`), LLM generation
(`generate_sql_query`, which already returns the normalized query),
validation (`validate_query`) and execution (`fetch_query_data`) — are
parameters; each returns `Except HtErr` as in the source, and the outer
`try/except` re-raises `HTTPException`s unchanged. -/

/-- `if not schema_context: schema_context = await get_db_schema(db_config)`:
a missing or empty schema context is fetched from the database. -/
def schemaOf (getSchema : DBConfig → Except HtErr String) (inp : QueryInput)
    (cfg : DBConfig) : Except HtErr String :=
  match inp.schema_context with
  | none => getSchema cfg
  | some s => if s = "" then getSchema cfg else .ok s

/-- `/generate_query` (lines 281-310): resolve config and schema, generate
the query, validate it; a validation failure is a 400 carrying the
diagnostic and the rejected query, success returns the query. -/
def generate_query (getSchema : DBConfig → Except HtErr String)
    (genQuery : String → String → String → Except HtErr String)
    (validate : String → DBConfig → Except HtErr (Bool × Option String))
    (inp : QueryInput) : Except HtErr String :=
  let cfg := effectiveConfig inp
  match schemaOf getSchema inp cfg with
  | .error e => .error e
  | .ok schema =>
    match genQuery inp.natural_language_query schema (dbTypeOf cfg) with
    | .error e => .error e
    | .ok sql =>
      match validate sql cfg with
      | .error e => .error e
      | .ok (is_valid, error_message) =>
        if is_valid then .ok sql
        else .error ⟨400, "Error: " ++ optStr error_message ++ " | Generated query: " ++ sql⟩

/-- `/fetch_data` (lines 312-344): as `/generate_query`, and on successful
validation executes the query and returns it with the data. -/
def fetch_data {ρ : Type} (getSchema : DBConfig → Except HtErr String)
    (genQuery : String → String → String → Except HtErr String)
    (validate : String → DBConfig → Except HtErr (Bool × Option String))
    (fetchQ : String → DBConfig → Except HtErr ρ)
    (inp : QueryInput) : Except HtErr (String × ρ) :=
  let cfg := effectiveConfig inp
  match schemaOf getSchema inp cfg with
  | .error e => .error e
  | .ok schema =>
    match genQuery inp.natural_language_query schema (dbTypeOf cfg) with
    | .error e => .error e
    | .ok sql =>
      match validate sql cfg with
      | .error e => .error e
      | .ok (is_valid, error_message) =>
        if is_valid then
          match fetchQ sql cfg with
          | .error e => .error e
          | .ok data => .ok (sql, data)
        else .error ⟨400, "Error: " ++ optStr error_message ++ " | Generated query: " ++ sql⟩

/-! ### query_generator.py: `get_postgres_schema` rendering (lines 60-83)

The loop over the information-schema rows renders a text, emitting a
`"\nTable: <t>\n"` header whenever the row's table differs from the
previous row's table (`current_table`, initially `None`), then a
`"  Column: <c> (<d>)\n"` line for the row. -/

/-- One row of the `information_schema.columns` query. -/
structure SchemaRow where
  table_name : List Char
  column_name : List Char
  data_type : List Char
deriving DecidableEq

/-- The header text emitted for a table. -/
def headerText (t : List Char) : List Char :=
  '\n' :: ("Table: ".toList ++ t ++ ['\n'])

/-- The column line emitted for a row. -/
def columnText (r : SchemaRow) : List Char :=
  "  Column: ".toList ++ r.column_name ++ " (".toList ++ r.data_type ++ ")\n".toList

/-- The rendering loop of `get_postgres_schema`: `cur` is
`current_table`. -/
def renderRows : Option (List Char) → List SchemaRow → List Char
  | _, [] => []
  | cur, r :: rs =>
    (if some r.table_name ≠ cur then headerText r.table_name else [])
      ++ columnText r ++ renderRows (some r.table_name) rs

/-- A piece of the rendered schema text, tagged by its kind. -/
inductive SchemaPiece where
  | header (t : List Char)
  | colLine (r : SchemaRow)
deriving DecidableEq

/-- The text of a piece. -/
def pieceText : SchemaPiece → List Char
  | .header t => headerText t
  | .colLine r => columnText r

/-- Concatenated text of a piece list. -/
def piecesText : List SchemaPiece → List Char
  | [] => []
  | p :: ps => pieceText p ++ piecesText ps

/-- The same loop as `renderRows`, producing the tagged pieces instead of
their concatenation. -/
def renderPieces : Option (List Char) → List SchemaRow → List SchemaPiece
  | _, [] => []
  | cur, r :: rs =>
    (if some r.table_name ≠ cur then [SchemaPiece.header r.table_name] else [])
      ++ SchemaPiece.colLine r :: renderPieces (some r.table_name) rs

/-- The sequence of tables for which a header is emitted. -/
def headerSeq (cur : Option (List Char)) (rows : List SchemaRow) : List (List Char) :=
  (renderPieces cur rows).filterMap fun p =>
    match p with
    | .header t => some t
    | .colLine _ => none

/-- Adjacent-duplicate removal relative to a previous value: the sequence
of values at which a run starts. -/
def destutterOpt {α : Type} [DecidableEq α] : Option α → List α → List α
  | _, [] => []
  | cur, t :: ts =>
    if some t ≠ cur then t :: destutterOpt (some t) ts else destutterOpt (some t) ts

/-- First-seen-order deduplication, with an accumulator of seen values. -/
def firstSeenAux {α : Type} [DecidableEq α] : List α → List α → List α
  | _, [] => []
  | seen, t :: ts =>
    if t ∈ seen then firstSeenAux seen ts else t :: firstSeenAux (t :: seen) ts

/-- The spec's "tables listed in first-seen order of the row sequence,
each exactly once". -/
def firstSeen {α : Type} [DecidableEq α] (ts : List α) : List α := firstSeenAux [] ts

/-! ## Lemmas -/

/-! ### Whitespace stripping -/

theorem dropWhile_nil_of_all {p : Char → Bool} :
    ∀ {l : List Char}, l.all p = true → l.dropWhile p = []
  | [], _ => rfl
  | c :: cs, h => by
    rw [List.all_cons, Bool.and_eq_true] at h
    simp [List.dropWhile, h.1, dropWhile_nil_of_all h.2]

theorem rstripWs_cons (c : Char) (cs : List Char) :
    rstripWs (c :: cs) =
      if rstripWs cs = [] ∧ pyIsSpace c = true then [] else c :: rstripWs cs := by
  by_cases h : rstripWs cs = []
  · by_cases hc : pyIsSpace c = true <;> simp [rstripWs, h, hc]
  · match hr : rstripWs cs with
    | [] => exact absurd hr h
    | r :: rs => simp [rstripWs, hr]

theorem rstripWs_of_allWs : ∀ {b : List Char}, allWsChars b = true → rstripWs b = []
  | [], _ => rfl
  | c :: cs, h => by
    rw [allWsChars, List.all_cons, Bool.and_eq_true] at h
    rw [rstripWs_cons]
    simp [rstripWs_of_allWs (show allWsChars cs = true from h.2), h.1]

theorem rstripWs_ne_nil_of_not_allWs :
    ∀ {b : List Char}, allWsChars b = false → rstripWs b ≠ []
  | c :: cs, h => by
    rw [rstripWs_cons]
    by_cases hcs : allWsChars cs = true
    · have hc : pyIsSpace c = false := by
        rw [allWsChars, List.all_cons] at h
        rw [allWsChars] at hcs
        simpa [hcs] using h
      simp [hc]
    · have hcs' : allWsChars cs = false := by simpa using hcs
      have := rstripWs_ne_nil_of_not_allWs hcs'
      simp [this]

theorem stripStr_of_allWs {l : List Char} (h : l.all pyIsSpace = true) :
    stripStr l = [] := by
  unfold stripStr dropWs
  rw [dropWhile_nil_of_all h]
  rfl

theorem rstripWs_concat_nonws {c : Char} (hc : pyIsSpace c = false) :
    ∀ (l : List Char), rstripWs (l ++ [c]) = l ++ [c]
  | [] => by simp [rstripWs, hc]
  | x :: l' => by
    rw [List.cons_append, rstripWs_cons, rstripWs_concat_nonws hc l']
    simp

theorem lastNotWs_rstripWs : ∀ (s : List Char), lastNotWs (rstripWs s) = true
  | [] => rfl
  | c :: cs => by
    rw [rstripWs_cons]
    by_cases h : rstripWs cs = [] ∧ pyIsSpace c = true
    · simp [h, lastNotWs]
    · rw [if_neg h]
      match hr : rstripWs cs with
      | [] =>
        have hc : pyIsSpace c = false := by
          rcases Bool.eq_false_or_eq_true (pyIsSpace c) with h1 | h1
          · exact absurd ⟨hr, h1⟩ h
          · exact h1
        simp [lastNotWs, hc]
      | r :: rs =>
        have := lastNotWs_rstripWs cs
        rw [hr] at this
        simpa [lastNotWs, List.getLast?_cons_cons] using this

theorem rstripWs_fix : ∀ {s : List Char}, lastNotWs s = true → rstripWs s = s
  | [], _ => rfl
  | c :: cs, h => by
    match hcs : cs with
    | [] =>
      have hc : pyIsSpace c = false := by simpa [lastNotWs] using h
      simp [rstripWs, hc]
    | d :: ds =>
      have ht : lastNotWs (d :: ds) = true := by
        simpa [lastNotWs, List.getLast?_cons_cons] using h
      rw [rstripWs_cons, rstripWs_fix ht]
      simp

theorem rstripWs_idem (s : List Char) : rstripWs (rstripWs s) = rstripWs s :=
  rstripWs_fix (lastNotWs_rstripWs s)

theorem headNotWs_rstripWs {s : List Char} (h : headNotWs s = true) :
    headNotWs (rstripWs s) = true := by
  match s with
  | [] => rfl
  | c :: cs =>
    rw [rstripWs_cons]
    by_cases hh : rstripWs cs = [] ∧ pyIsSpace c = true
    · simp [hh, headNotWs]
    · rw [if_neg hh]; simpa [headNotWs] using h

theorem allWsSp_rstripWs : ∀ {s : List Char}, allWsSp s = true → allWsSp (rstripWs s) = true
  | [], _ => rfl
  | c :: cs, h => by
    rw [allWsSp, List.all_cons, Bool.and_eq_true] at h
    rw [rstripWs_cons]
    by_cases hh : rstripWs cs = [] ∧ pyIsSpace c = true
    · simp [allWsSp, hh]
    · rw [if_neg hh, allWsSp, List.all_cons, Bool.and_eq_true]
      exact ⟨h.1, allWsSp_rstripWs h.2⟩

theorem noAdjWs_tail {a : Char} {l : List Char} (h : noAdjWs (a :: l) = true) :
    noAdjWs l = true := by
  match l with
  | [] => rfl
  | b :: t => simp [noAdjWs] at h ⊢; exact h.2

theorem noAdjWs_rstripWs : ∀ {s : List Char}, noAdjWs s = true → noAdjWs (rstripWs s) = true
  | [], _ => rfl
  | c :: cs, h => by
    rw [rstripWs_cons]
    by_cases hh : rstripWs cs = [] ∧ pyIsSpace c = true
    · simp [hh, noAdjWs]
    · rw [if_neg hh]
      match hr : rstripWs cs with
      | [] => simp [noAdjWs]
      | r :: rs =>
        have hcs : noAdjWs cs = true := noAdjWs_tail h
        have htail : noAdjWs (r :: rs) = true := by
          have := noAdjWs_rstripWs hcs; rwa [hr] at this
        match cs with
        | [] => simp [rstripWs] at hr
        | d :: ds =>
          have hrd : r = d := by
            rw [rstripWs_cons] at hr
            by_cases h2 : rstripWs ds = [] ∧ pyIsSpace d = true
            · simp [h2] at hr
            · rw [if_neg h2] at hr
              exact (List.cons.injEq .. ▸ hr).1.symm
          have hpair : !(pyIsSpace c && pyIsSpace d) = true := by
            simp [noAdjWs] at h ⊢; tauto
          subst hrd
          simp [noAdjWs] at htail ⊢
          refine ⟨?_, htail⟩
          simpa using hpair

theorem headNotWs_dropWs : ∀ (s : List Char), headNotWs (dropWs s) = true
  | [] => rfl
  | c :: cs => by
    by_cases hc : pyIsSpace c = true
    · simpa [dropWs, List.dropWhile, hc] using headNotWs_dropWs cs
    · have hc' : pyIsSpace c = false := by simpa using hc
      simp [dropWs, List.dropWhile, hc', headNotWs]

theorem dropWs_fix {s : List Char} (h : headNotWs s = true) : dropWs s = s := by
  match s with
  | [] => rfl
  | c :: cs =>
    have hc : pyIsSpace c = false := by simpa [headNotWs] using h
    simp [dropWs, List.dropWhile, hc]

theorem allWsSp_dropWs : ∀ {s : List Char}, allWsSp s = true → allWsSp (dropWs s) = true
  | [], _ => rfl
  | c :: cs, h => by
    have h2 : allWsSp cs = true := by
      rw [allWsSp, List.all_cons, Bool.and_eq_true] at h; exact h.2
    by_cases hc : pyIsSpace c = true
    · simpa [dropWs, List.dropWhile, hc] using allWsSp_dropWs h2
    · simpa [dropWs, List.dropWhile, hc] using h

theorem noAdjWs_dropWs : ∀ {s : List Char}, noAdjWs s = true → noAdjWs (dropWs s) = true
  | [], _ => rfl
  | c :: cs, h => by
    by_cases hc : pyIsSpace c = true
    · simpa [dropWs, List.dropWhile, hc] using noAdjWs_dropWs (noAdjWs_tail h)
    · simpa [dropWs, List.dropWhile, hc] using h

/-! ### Whitespace collapsing -/

theorem collapseWs_head_of_not_ws {b : Char} (t : List Char) (h : pyIsSpace b = false) :
    ∃ r, collapseWs (b :: t) = b :: r := by
  match t with
  | [] => exact ⟨[], by simp [collapseWs, h]⟩
  | c :: t' => exact ⟨collapseWs (c :: t'), by simp [collapseWs, h]⟩

theorem collapseWs_head_of_ws : ∀ {b : Char} (t : List Char), pyIsSpace b = true →
    ∃ r, collapseWs (b :: t) = ' ' :: r
  | b, [], h => ⟨[], by simp [collapseWs, h]⟩
  | b, c :: t', h => by
    by_cases hc : pyIsSpace c = true
    · obtain ⟨r, hr⟩ := collapseWs_head_of_ws t' hc
      exact ⟨r, by simp [collapseWs, h, hc, hr]⟩
    · exact ⟨collapseWs (c :: t'), by simp [collapseWs, h, hc]⟩

theorem collapseWs_props : ∀ (s : List Char),
    allWsSp (collapseWs s) = true ∧ noAdjWs (collapseWs s) = true
  | [] => ⟨rfl, rfl⟩
  | [c] => by
    cases h : pyIsSpace c
    · rw [show collapseWs [c] = [c] by simp [collapseWs, h]]
      refine ⟨?_, rfl⟩
      rw [allWsSp, List.all_cons]
      simp [h]
    · rw [show collapseWs [c] = [' '] by simp [collapseWs, h]]
      refine ⟨?_, rfl⟩
      rw [allWsSp, List.all_cons]
      simp
  | a :: b :: t => by
    have ih := collapseWs_props (b :: t)
    cases ha : pyIsSpace a
    · rw [show collapseWs (a :: b :: t) = a :: collapseWs (b :: t) by
        simp [collapseWs, ha]]
      constructor
      · rw [allWsSp, List.all_cons, Bool.and_eq_true]
        exact ⟨by simp [ha], ih.1⟩
      · cases hb : pyIsSpace b
        · obtain ⟨r, hr⟩ := collapseWs_head_of_not_ws t hb
          rw [hr, noAdjWs, Bool.and_eq_true]
          refine ⟨by simp [ha], ?_⟩
          rw [← hr]; exact ih.2
        · obtain ⟨r, hr⟩ := collapseWs_head_of_ws t hb
          rw [hr, noAdjWs, Bool.and_eq_true]
          refine ⟨by simp [ha], ?_⟩
          rw [← hr]; exact ih.2
    · cases hb : pyIsSpace b
      · obtain ⟨r, hr⟩ := collapseWs_head_of_not_ws t hb
        rw [show collapseWs (a :: b :: t) = ' ' :: collapseWs (b :: t) by
          simp [collapseWs, ha, hb]]
        constructor
        · rw [allWsSp, List.all_cons, Bool.and_eq_true]
          exact ⟨by simp, ih.1⟩
        · rw [hr, noAdjWs, Bool.and_eq_true]
          refine ⟨by simp [hb], ?_⟩
          rw [← hr]; exact ih.2
      · rw [show collapseWs (a :: b :: t) = collapseWs (b :: t) by
          simp [collapseWs, ha, hb]]
        exact ih

theorem collapseWs_fix : ∀ {s : List Char},
    allWsSp s = true → noAdjWs s = true → collapseWs s = s
  | [], _, _ => rfl
  | [c], hsp, _ => by
    cases h : pyIsSpace c
    · simp [collapseWs, h]
    · have hc : c = ' ' := by
        rw [allWsSp, List.all_cons] at hsp
        simp [h] at hsp
        exact hsp
      simp [collapseWs, h, hc]
  | a :: b :: t, hsp, hadj => by
    have hsp' : allWsSp (b :: t) = true := by
      rw [allWsSp, List.all_cons, Bool.and_eq_true] at hsp; exact hsp.2
    have hadj' : noAdjWs (b :: t) = true := noAdjWs_tail hadj
    have ih := collapseWs_fix hsp' hadj'
    cases ha : pyIsSpace a
    · simp [collapseWs, ha, ih]
    · have hb : pyIsSpace b = false := by
        rw [noAdjWs, Bool.and_eq_true] at hadj
        have h1 := hadj.1
        simp [ha] at h1
        exact h1
      have haSp : a = ' ' := by
        rw [allWsSp, List.all_cons] at hsp
        simp [ha] at hsp
        exact hsp.1
      simp [collapseWs, ha, hb, ih, haSp]

/-! ### The fence-removal pass -/

theorem matchFenceSql_eq_none : ∀ {s : List Char}, startsFence s = false →
    matchFenceSql s = none
  | [], _ => rfl
  | [_], _ => rfl
  | [_, _], _ => rfl
  | [_, _, _], _ => rfl
  | [_, _, _, _], _ => rfl
  | [_, _, _, _, _], _ => rfl
  | a :: b :: c :: d :: e :: f :: rest, h => by
    have h3 : (a == btick && b == btick && c == btick) = false := by
      simpa [startsFence] using h
    simp only [matchFenceSql]
    rw [show (a == btick && b == btick && c == btick
          && d.toLower == 's' && e.toLower == 'q' && f.toLower == 'l')
        = ((a == btick && b == btick && c == btick)
          && (d.toLower == 's' && e.toLower == 'q' && f.toLower == 'l')) by
      cases a == btick <;> cases b == btick <;> cases c == btick <;>
        cases d.toLower == 's' <;> cases e.toLower == 'q' <;> cases f.toLower == 'l' <;> rfl]
    rw [h3]
    rfl

theorem startsFence_cons_of_ne {x : Char} (l : List Char) (h : ¬ x = btick) :
    startsFence (x :: l) = false := by
  match l with
  | [] => rfl
  | [_] => rfl
  | a :: b :: t => simp [startsFence, h]

theorem hasTriple_head {s : List Char} (h : hasTriple s = false) :
    startsFence s = false := by
  match s with
  | [] => rfl
  | c :: t =>
    rw [hasTriple, Bool.or_eq_false_iff] at h
    exact h.1

theorem hasTriple_tail {c : Char} {t : List Char} (h : hasTriple (c :: t) = false) :
    hasTriple t = false := by
  rw [hasTriple, Bool.or_eq_false_iff] at h
  exact h.2

theorem hasTriple_dropWs : ∀ {s : List Char}, hasTriple s = false →
    hasTriple (dropWs s) = false
  | [], _ => rfl
  | c :: cs, h => by
    by_cases hc : pyIsSpace c = true
    · simpa [dropWs, List.dropWhile, hc] using hasTriple_dropWs (hasTriple_tail h)
    · simpa [dropWs, List.dropWhile, hc] using h

theorem matchWsFence_eq_none {s : List Char} (h : hasTriple s = false) :
    matchWsFence s = none := by
  rw [matchWsFence, if_neg]
  simp [hasTriple_head (hasTriple_dropWs h)]

theorem removeFencesF_id : ∀ (fuel : Nat) {s : List Char}, hasTriple s = false →
    removeFencesF fuel s = s
  | 0, _, _ => rfl
  | _ + 1, [], _ => rfl
  | fuel + 1, c :: cs, h => by
    simp only [removeFencesF, matchFenceSql_eq_none (hasTriple_head h),
        matchWsFence_eq_none h]
    rw [removeFencesF_id fuel (hasTriple_tail h)]

theorem dropWs_append_of_allWs {b : List Char} (r : List Char)
    (h : allWsChars b = true) : dropWs (b ++ r) = dropWs r := by
  induction b with
  | nil => rfl
  | cons c cs ih =>
    rw [allWsChars, List.all_cons, Bool.and_eq_true] at h
    rw [List.cons_append]
    simpa [dropWs, List.dropWhile, h.1] using ih h.2

theorem dropWs_append_of_not_allWs : ∀ {b : List Char} (r : List Char),
    allWsChars b = false → dropWs (b ++ r) = dropWs b ++ r
  | c :: cs, r, h => by
    cases hc : pyIsSpace c
    · simp [dropWs, List.dropWhile, hc]
    · have hcs : allWsChars cs = false := by
        rw [allWsChars, List.all_cons, hc] at h
        simpa [allWsChars] using h
      rw [List.cons_append]
      simpa [dropWs, List.dropWhile, hc] using dropWs_append_of_not_allWs r hcs

theorem dropWs_ne_nil_of_not_allWs : ∀ {b : List Char}, allWsChars b = false →
    dropWs b ≠ []
  | c :: cs, h => by
    cases hc : pyIsSpace c
    · simp [dropWs, List.dropWhile, hc]
    · have hcs : allWsChars cs = false := by
        rw [allWsChars, List.all_cons, hc] at h
        simpa [allWsChars] using h
      simpa [dropWs, List.dropWhile, hc] using dropWs_ne_nil_of_not_allWs hcs

theorem dropWs_head_mem : ∀ {b : List Char} {x : Char} {r : List Char},
    dropWs b = x :: r → x ∈ b
  | c :: cs, x, r, h => by
    cases hc : pyIsSpace c
    · have h2 : c :: cs = x :: r := by rw [dropWs, List.dropWhile, hc] at h; exact h
      injection h2 with h3 h4
      rw [← h3]
      exact List.mem_cons_self c cs
    · have h2 : dropWs cs = x :: r := by rw [dropWs, List.dropWhile, hc] at h; exact h
      exact List.mem_cons_of_mem c (dropWs_head_mem h2)

theorem dropWs_head_not_ws {b : List Char} {x : Char} {r : List Char}
    (h : dropWs b = x :: r) : pyIsSpace x = false := by
  have := headNotWs_dropWs b
  rw [h, headNotWs] at this
  simpa using this

theorem dropWs_length_le : ∀ (b : List Char), (dropWs b).length ≤ b.length
  | [] => Nat.le_refl 0
  | c :: cs => by
    cases hc : pyIsSpace c
    · simp [dropWs, List.dropWhile, hc]
    · rw [dropWs, List.dropWhile, hc]
      exact Nat.le_succ_of_le (dropWs_length_le cs)

theorem pyIsSpace_btick : pyIsSpace btick = false := by decide

theorem pyIsSpace_semi : pyIsSpace ';' = false := by decide

theorem startsFence_triple (rest : List Char) :
    startsFence (btick :: btick :: btick :: rest) = true := by
  simp [startsFence]

/-- Scanning `b ++ three-backticks` where `b` has no backtick: each
character of `b` is kept until the position where everything remaining in
`b` is whitespace; there the second regex alternative consumes that
whitespace and the closing fence.  The result is `b` without its trailing
whitespace. -/
theorem removeFencesF_body : ∀ (fuel : Nat) {b : List Char}, btick ∉ b →
    b.length + 1 ≤ fuel →
    removeFencesF fuel (b ++ [btick, btick, btick]) = rstripWs b
  | 0, b, _, hf => by exact absurd hf (by simp)
  | fuel + 1, [], _, _ => by
    rw [List.nil_append, removeFencesF]
    rw [show matchFenceSql [btick, btick, btick] = none from rfl]
    rw [show matchWsFence [btick, btick, btick]
        = some ([btick, btick, btick].drop 3) by
      rw [matchWsFence, dropWs_fix (by simp [headNotWs, pyIsSpace_btick]),
        if_pos (startsFence_triple [])]]
    simp [rstripWs]
    cases fuel <;> rfl
  | fuel + 1, c :: b', hmem, hf => by
    have hcb : ¬ c = btick := fun hc => hmem (hc ▸ List.mem_cons_self c b')
    have hmem' : btick ∉ b' := fun hx => hmem (List.mem_cons_of_mem c hx)
    have hf' : b'.length + 1 ≤ fuel := by
      simp only [List.length_cons] at hf; omega
    rw [List.cons_append, removeFencesF]
    rw [matchFenceSql_eq_none (startsFence_cons_of_ne _ hcb)]
    cases hc : pyIsSpace c
    · -- a non-whitespace character of the body: no match here
      rw [show matchWsFence (c :: (b' ++ [btick, btick, btick])) = none by
        rw [matchWsFence, if_neg]
        rw [dropWs_fix (by simp [headNotWs, hc])]
        simp [startsFence_cons_of_ne _ hcb]]
      rw [removeFencesF_body fuel hmem' hf']
      rw [rstripWs_cons]
      by_cases hnil : rstripWs b' = [] ∧ pyIsSpace c = true
      · rw [hnil.2] at hc; exact absurd hc (by simp)
      · rw [if_neg hnil]
    · -- a whitespace character: match iff the rest of the body is blank
      by_cases hall : allWsChars b' = true
      · have hsteps : dropWs (c :: (b' ++ [btick, btick, btick]))
            = [btick, btick, btick] := by
          rw [show c :: (b' ++ [btick, btick, btick])
              = (c :: b') ++ [btick, btick, btick] from rfl]
          rw [dropWs_append_of_allWs _ (by
            rw [allWsChars, List.all_cons, Bool.and_eq_true]
            exact ⟨hc, hall⟩)]
          exact dropWs_fix (by simp [headNotWs, pyIsSpace_btick])
        rw [show matchWsFence (c :: (b' ++ [btick, btick, btick]))
            = some [] by
          rw [matchWsFence, hsteps]
          simp [startsFence_triple]]
        rw [rstripWs_of_allWs (by
          rw [allWsChars, List.all_cons, Bool.and_eq_true]; exact ⟨hc, hall⟩)]
        cases fuel <;> rfl
      · have hall' : allWsChars b' = false := by simpa using hall
        rw [show matchWsFence (c :: (b' ++ [btick, btick, btick])) = none by
          rw [matchWsFence, if_neg]
          rw [show c :: (b' ++ [btick, btick, btick])
              = (c :: b') ++ [btick, btick, btick] from rfl]
          rw [dropWs_append_of_not_allWs _ (by
            have hall2 : b'.all pyIsSpace = false := hall'
            rw [allWsChars, List.all_cons, hall2, Bool.and_false])]
          match hx : dropWs (c :: b') with
          | [] => exact absurd hx (dropWs_ne_nil_of_not_allWs (by
              have hall2 : b'.all pyIsSpace = false := hall'
              rw [allWsChars, List.all_cons, hall2, Bool.and_false]))
          | x :: r =>
            have hxb : ¬ x = btick := fun hxb => by
              have := dropWs_head_not_ws hx
              exact hmem (hxb ▸ dropWs_head_mem hx)
            rw [List.cons_append]
            simp [startsFence_cons_of_ne _ hxb]]
        rw [removeFencesF_body fuel hmem' hf']
        rw [rstripWs_cons, if_neg]
        intro hcon
        exact rstripWs_ne_nil_of_not_allWs hall' hcon.1

theorem mem_of_mem_dropWs : ∀ {b : List Char} {x : Char}, x ∈ dropWs b → x ∈ b
  | [], _, h => by simp [dropWs] at h
  | c :: cs, x, h => by
    cases hc : pyIsSpace c
    · have h2 : x ∈ c :: cs := by rw [dropWs, List.dropWhile, hc] at h; exact h
      exact h2
    · have h2 : x ∈ dropWs cs := by rw [dropWs, List.dropWhile, hc] at h; exact h
      exact List.mem_cons_of_mem c (mem_of_mem_dropWs h2)

/-! ### The semicolon pass and fixpoints of the pipeline -/

theorem stripTrailingSemi_concat_two (s : List Char) :
    stripTrailingSemi (s ++ [';', ';']) = s ++ [';'] := by
  have hsplit : s ++ [';', ';'] = (s ++ [';']) ++ [';'] := by simp
  have h1 : rstripWs (s ++ [';', ';']) = s ++ [';', ';'] := by
    rw [hsplit]; exact rstripWs_concat_nonws pyIsSpace_semi (s ++ [';'])
  show (if (rstripWs (s ++ [';', ';'])).getLast? = some ';'
      then (rstripWs (s ++ [';', ';'])).dropLast else s ++ [';', ';']) = s ++ [';']
  rw [h1, hsplit, List.getLast?_concat, if_pos rfl, List.dropLast_concat]

theorem stripTrailingSemi_fix {s : List Char} (h1 : lastNotWs s = true)
    (h2 : s.getLast? ≠ some ';') : stripTrailingSemi s = s := by
  show (if (rstripWs s).getLast? = some ';' then (rstripWs s).dropLast else s) = s
  rw [rstripWs_fix h1, if_neg h2]

theorem collapsedWsOk_stripCollapse (y : List Char) :
    collapsedWsOk (stripStr (collapseWs y)) = true := by
  obtain ⟨hsp, hadj⟩ := collapseWs_props y
  rw [collapsedWsOk, stripStr, Bool.and_eq_true, Bool.and_eq_true, Bool.and_eq_true]
  exact ⟨⟨⟨allWsSp_rstripWs (allWsSp_dropWs hsp),
    noAdjWs_rstripWs (noAdjWs_dropWs hadj)⟩,
    headNotWs_rstripWs (headNotWs_dropWs (collapseWs y))⟩,
    lastNotWs_rstripWs _⟩

/-- Every output of `clean_sql_query` has fully collapsed whitespace. -/
theorem cleanChars_wsOk (q : List Char) : collapsedWsOk (cleanChars q) = true :=
  collapsedWsOk_stripCollapse _

/-- A string with collapsed whitespace, no triple backtick and no final
semicolon is a fixed point of the whole pipeline. -/
theorem cleanChars_fix {s : List Char} (hws : collapsedWsOk s = true)
    (hfence : hasTriple s = false) (hsemi : s.getLast? ≠ some ';') :
    cleanChars s = s := by
  rw [collapsedWsOk, Bool.and_eq_true, Bool.and_eq_true, Bool.and_eq_true] at hws
  obtain ⟨⟨⟨hsp, hadj⟩, hhead⟩, hlast⟩ := hws
  rw [cleanChars, removeFences, removeFencesF_id _ hfence,
      stripTrailingSemi_fix hlast hsemi, collapseWs_fix hsp hadj, stripStr,
      dropWs_fix hhead, rstripWs_fix hlast]

/-! ### Schema rendering (for C9) -/

theorem renderRows_eq_piecesText : ∀ (cur : Option (List Char)) (rows : List SchemaRow),
    renderRows cur rows = piecesText (renderPieces cur rows)
  | _, [] => rfl
  | cur, r :: rs => by
    have ih := renderRows_eq_piecesText (some r.table_name) rs
    by_cases h : some r.table_name ≠ cur
    · rw [renderRows, renderPieces, if_pos h, if_pos h]
      simp only [List.singleton_append, piecesText, pieceText, ih, List.append_assoc]
    · rw [renderRows, renderPieces, if_neg h, if_neg h]
      simp only [List.nil_append, piecesText, pieceText, ih]

theorem headerSeq_eq_destutterOpt : ∀ (cur : Option (List Char)) (rows : List SchemaRow),
    headerSeq cur rows = destutterOpt cur (rows.map SchemaRow.table_name)
  | _, [] => rfl
  | cur, r :: rs => by
    have ih := headerSeq_eq_destutterOpt (some r.table_name) rs
    rw [headerSeq] at ih
    by_cases h : some r.table_name ≠ cur
    · rw [headerSeq, renderPieces, if_pos h, List.map_cons, destutterOpt]
      rw [if_pos h, List.singleton_append, List.filterMap_cons, List.filterMap_cons]
      simpa using ih
    · rw [headerSeq, renderPieces, if_neg h, List.map_cons, destutterOpt]
      rw [if_neg h, List.nil_append, List.filterMap_cons]
      simpa using ih

theorem firstSeenAux_avoids {α : Type} [DecidableEq α] :
    ∀ (seen ts : List α) {x : α}, x ∈ firstSeenAux seen ts → x ∉ seen
  | seen, t :: ts, x, hx => by
    rw [firstSeenAux] at hx
    by_cases ht : t ∈ seen
    · rw [if_pos ht] at hx
      exact firstSeenAux_avoids seen ts hx
    · rw [if_neg ht] at hx
      rcases List.mem_cons.mp hx with h1 | h1
      · rw [h1]; exact ht
      · intro hseen
        exact firstSeenAux_avoids (t :: seen) ts h1 (List.mem_cons_of_mem t hseen)

theorem firstSeenAux_nodup {α : Type} [DecidableEq α] :
    ∀ (seen ts : List α), (firstSeenAux seen ts).Nodup
  | _, [] => List.nodup_nil
  | seen, t :: ts => by
    rw [firstSeenAux]
    by_cases ht : t ∈ seen
    · rw [if_pos ht]
      exact firstSeenAux_nodup seen ts
    · rw [if_neg ht]
      refine List.nodup_cons.mpr ⟨?_, firstSeenAux_nodup (t :: seen) ts⟩
      intro hmem
      exact firstSeenAux_avoids (t :: seen) ts hmem (List.mem_cons_self t seen)

theorem destutterOpt_eq_firstSeenAux {α : Type} [DecidableEq α] :
    ∀ (ts : List α) (prev : α) (seen : List α), prev ∈ seen →
      (destutterOpt (some prev) ts).Nodup →
      (∀ x ∈ destutterOpt (some prev) ts, x ∉ seen) →
      destutterOpt (some prev) ts = firstSeenAux seen ts
  | [], _, _, _, _, _ => rfl
  | t :: ts, prev, seen, hprev, hnd, havoid => by
    by_cases ht : t = prev
    · subst ht
      rw [destutterOpt, if_neg (by simp)] at hnd havoid ⊢
      rw [firstSeenAux, if_pos hprev]
      exact destutterOpt_eq_firstSeenAux ts t seen hprev hnd havoid
    · rw [destutterOpt, if_pos (by simpa using ht)] at hnd havoid ⊢
      have htseen : t ∉ seen := havoid t (List.mem_cons_self _ _)
      rw [firstSeenAux, if_neg htseen]
      have hnd' := List.nodup_cons.mp hnd
      refine congrArg (t :: ·) (destutterOpt_eq_firstSeenAux ts t (t :: seen)
        (List.mem_cons_self t seen) hnd'.2 ?_)
      intro x hx
      rw [List.mem_cons]
      push_neg
      constructor
      · intro hxt
        exact hnd'.1 (hxt ▸ hx)
      · exact havoid x (List.mem_cons_of_mem t hx)

theorem destutterOpt_none_eq_firstSeen {α : Type} [DecidableEq α] :
    ∀ (ts : List α), (destutterOpt none ts).Nodup →
      destutterOpt none ts = firstSeen ts
  | [], _ => rfl
  | t :: ts, hnd => by
    rw [destutterOpt, if_pos (by simp)] at hnd ⊢
    rw [firstSeen, firstSeenAux, if_neg (List.not_mem_nil t)]
    have hnd' := List.nodup_cons.mp hnd
    refine congrArg (t :: ·) (destutterOpt_eq_firstSeenAux ts t [t]
      (List.mem_cons_self t []) hnd'.2 ?_)
    intro x hx
    simp only [List.mem_singleton]
    intro hxt
    exact hnd'.1 (hxt ▸ hx)

/-! ## Claim C9 -/

/-- C9 counterexample: on the row sequence (a, x), (b, y), (a, z) — the
information-schema query has no ORDER BY, so this interleaved order is a
possible row sequence — `get_postgres_schema`'s rendering loop emits the
header of table `a` twice (it emits a header whenever the table differs
from the immediately preceding row's table), so a table header does not
appear exactly once. -/
theorem C9_counterexample :
    countSubChars (headerText "a".toList)
      (renderRows none
        [⟨"a".toList, "x".toList, "integer".toList⟩,
         ⟨"b".toList, "y".toList, "integer".toList⟩,
         ⟨"a".toList, "z".toList, "integer".toList⟩]) = 2
    ∧ headerSeq none
        [⟨"a".toList, "x".toList, "integer".toList⟩,
         ⟨"b".toList, "y".toList, "integer".toList⟩,
         ⟨"a".toList, "z".toList, "integer".toList⟩]
      = ["a".toList, "b".toList, "a".toList] := by
  constructor
  · decide
  · decide

/-- C9 amended: the rendering loop emits one header per maximal run of
consecutive rows with the same table (`headerSeq` = adjacent-duplicate
collapse of the table column); consequently, when every table's rows are
contiguous in the row sequence (equivalently, the run-collapsed table list
has no duplicate), each table's header appears exactly once, in first-seen
order.  The first conjunct ties the header sequence to the rendered text:
the rendering is the concatenation of the emitted pieces. -/
theorem C9_amended :
    (∀ (cur : Option (List Char)) (rows : List SchemaRow),
        renderRows cur rows = piecesText (renderPieces cur rows))
    ∧ (∀ (cur : Option (List Char)) (rows : List SchemaRow),
        headerSeq cur rows = destutterOpt cur (rows.map SchemaRow.table_name))
    ∧ (∀ rows : List SchemaRow,
        (destutterOpt none (rows.map SchemaRow.table_name)).Nodup →
        headerSeq none rows = firstSeen (rows.map SchemaRow.table_name)
          ∧ (headerSeq none rows).Nodup)
    ∧ (∀ ts : List (List Char), (firstSeen ts).Nodup) := by
  refine ⟨renderRows_eq_piecesText, headerSeq_eq_destutterOpt, ?_,
    fun ts => firstSeenAux_nodup [] ts⟩
  intro rows hnd
  rw [headerSeq_eq_destutterOpt]
  exact ⟨destutterOpt_none_eq_firstSeen _ hnd, hnd⟩

/-- C9 witness: the amended statement applied to a grouped row sequence
(rows of `a`, then rows of `b`): the emitted headers are exactly `a`, `b`,
in first-seen order, each once. -/
theorem C9_witness :
    (destutterOpt none
        ([⟨"a".toList, "x".toList, "integer".toList⟩,
          ⟨"a".toList, "y".toList, "text".toList⟩,
          ⟨"b".toList, "z".toList, "integer".toList⟩].map SchemaRow.table_name)).Nodup
    ∧ headerSeq none
        [⟨"a".toList, "x".toList, "integer".toList⟩,
         ⟨"a".toList, "y".toList, "text".toList⟩,
         ⟨"b".toList, "z".toList, "integer".toList⟩]
      = firstSeen
          ([⟨"a".toList, "x".toList, "integer".toList⟩,
            ⟨"a".toList, "y".toList, "text".toList⟩,
            ⟨"b".toList, "z".toList, "integer".toList⟩].map SchemaRow.table_name) :=
  ⟨by decide,
    (C9_amended.2.2.1
      [⟨"a".toList, "x".toList, "integer".toList⟩,
       ⟨"a".toList, "y".toList, "text".toList⟩,
       ⟨"b".toList, "z".toList, "integer".toList⟩] (by decide)).1⟩

/-! ## Claim C4 -/

/-- C4: `clean_sql_query` is a deterministic pure text transform (it is a
function by construction): the second substitution strips exactly one
trailing statement terminator — only a final `;` (possibly followed by
whitespace) is removed, once, so `"SELECT 1;;"` maps to `"SELECT 1;"`;
the first substitution removes a leading code-fence marker ` ```sql `
case-insensitively together with a trailing ` ``` ` marker (shown for a
query body containing no backtick: what remains is exactly the body with
its surrounding whitespace dropped, which the later passes would strip
anyway); and every output has all whitespace runs collapsed to single
spaces with none at either end. -/
theorem C4_normalizer :
    (∀ s : List Char, stripTrailingSemi (s ++ [';', ';']) = s ++ [';'])
    ∧ clean_sql_query "SELECT 1;;" = "SELECT 1;"
    ∧ (∀ (a b c : Char) (body : List Char),
        a.toLower = 's' → b.toLower = 'q' → c.toLower = 'l' → btick ∉ body →
        removeFences (btick :: btick :: btick :: a :: b :: c ::
            (body ++ [btick, btick, btick]))
          = rstripWs (dropWs body))
    ∧ clean_sql_query "```SQL SELECT 1 ```" = "SELECT 1"
    ∧ (∀ q : String, collapsedWsOk (cleanChars q.toList) = true) := by
  refine ⟨stripTrailingSemi_concat_two, by decide, ?_, by decide,
    fun q => cleanChars_wsOk _⟩
  intro a b c body ha hb hc hmem
  rw [removeFences]
  rw [show (btick :: btick :: btick :: a :: b :: c ::
      (body ++ [btick, btick, btick])).length = (body.length + 8) + 1 by
    simp]
  rw [show removeFencesF ((body.length + 8) + 1)
        (btick :: btick :: btick :: a :: b :: c :: (body ++ [btick, btick, btick]))
      = removeFencesF (body.length + 8) (dropWs (body ++ [btick, btick, btick])) by
    have hstep : matchFenceSql (btick :: btick :: btick :: a :: b :: c ::
        (body ++ [btick, btick, btick]))
        = some (dropWs (body ++ [btick, btick, btick])) := by
      simp [matchFenceSql, ha, hb, hc]
    simp only [removeFencesF, hstep]]
  by_cases hall : allWsChars body = true
  · have hdze : dropWs body = [] := dropWhile_nil_of_all hall
    rw [dropWs_append_of_allWs _ hall,
      dropWs_fix (by simp [headNotWs, pyIsSpace_btick]), hdze]
    rw [show body.length + 8 = (body.length + 7) + 1 from rfl, removeFencesF]
    rw [show matchFenceSql [btick, btick, btick] = none from rfl]
    rw [show matchWsFence [btick, btick, btick] = some [] by
      rw [matchWsFence, dropWs_fix (by simp [headNotWs, pyIsSpace_btick])]
      simp [startsFence_triple]]
    show removeFencesF (body.length + 7) [] = rstripWs []
    rw [show body.length + 7 = (body.length + 6) + 1 from rfl]
    rfl
  · have hall' : allWsChars body = false := by simpa using hall
    rw [dropWs_append_of_not_allWs _ hall']
    exact removeFencesF_body (body.length + 8)
      (fun hx => hmem (mem_of_mem_dropWs hx))
      (by have := dropWs_length_le body; omega)

/-- C4 witness: the fence-removal conjunct applied at the concrete
uppercase-tagged fenced query ` ```SQL ``` ` around `SELECT 1`. -/
theorem C4_witness :
    (Char.toLower 'S' = 's' ∧ Char.toLower 'Q' = 'q' ∧ Char.toLower 'L' = 'l'
      ∧ btick ∉ (' ' :: "SELECT 1".toList))
    ∧ removeFences (btick :: btick :: btick :: 'S' :: 'Q' :: 'L' ::
        ((' ' :: "SELECT 1".toList) ++ [btick, btick, btick]))
      = rstripWs (dropWs (' ' :: "SELECT 1".toList)) :=
  ⟨⟨by decide, by decide, by decide, by decide⟩,
    C4_normalizer.2.2.1 'S' 'Q' 'L' (' ' :: "SELECT 1".toList)
      (by decide) (by decide) (by decide) (by decide)⟩

/-! ## Claim C2 -/

/-- C2 counterexample: `clean_sql_query` is not idempotent.  On the
spec's own example `"SELECT 1;;"` the first application yields
`"SELECT 1;"` and a second application strips the remaining terminator,
yielding `"SELECT 1"`. -/
theorem C2_counterexample :
    clean_sql_query (clean_sql_query "SELECT 1;;") ≠ clean_sql_query "SELECT 1;;" := by
  decide

/-- C2 amended: `clean_sql_query` is idempotent on every input whose
normalized output does not end in `;` and does not contain a triple
backtick (a second application strips a further trailing terminator, and
backticks rejoined by the fence pass can form a new fence marker; absent
those two cases the output is a fixed point). -/
theorem C2_amended : ∀ q : List Char,
    hasTriple (cleanChars q) = false →
    (cleanChars q).getLast? ≠ some ';' →
    cleanChars (cleanChars q) = cleanChars q :=
  fun q h1 h2 => cleanChars_fix (cleanChars_wsOk q) h1 h2

/-- C2 witness: the amended idempotence applied at `"SELECT  1"`. -/
theorem C2_witness :
    (hasTriple (cleanChars "SELECT  1".toList) = false
      ∧ (cleanChars "SELECT  1".toList).getLast? ≠ some ';')
    ∧ cleanChars (cleanChars "SELECT  1".toList) = cleanChars "SELECT  1".toList :=
  ⟨⟨by decide, by decide⟩, C2_amended "SELECT  1".toList (by decide) (by decide)⟩

/-! ## Claim C5 -/

/-- C5: for every explicitly supplied hour, `/greet` answers
"Good morning!" exactly on 5..11, "Good afternoon!" exactly on 12..17,
"Good evening!" exactly on 18..21, "Good night!" exactly on 0..4 and
22..23, and any hour outside [0, 23] is a 400 validation error with no
greeting. -/
theorem C5_greeting_boundaries :
    (∀ h : Int, get_greeting h = .ok "Good morning!" ↔ 5 ≤ h ∧ h ≤ 11)
    ∧ (∀ h : Int, get_greeting h = .ok "Good afternoon!" ↔ 12 ≤ h ∧ h ≤ 17)
    ∧ (∀ h : Int, get_greeting h = .ok "Good evening!" ↔ 18 ≤ h ∧ h ≤ 21)
    ∧ (∀ h : Int, get_greeting h = .ok "Good night!"
        ↔ (0 ≤ h ∧ h ≤ 4) ∨ (22 ≤ h ∧ h ≤ 23))
    ∧ (∀ h : Int, get_greeting h = .error ⟨400, "Hour must be between 0 and 23."⟩
        ↔ (h < 0 ∨ 23 < h)) := by
  refine ⟨?_, ?_, ?_, ?_, ?_⟩ <;> intro h <;>
    simp only [get_greeting] <;> split_ifs with h1 h2 h3 h4 <;>
    constructor <;> intro hh <;>
    first
      | rfl
      | omega
      | exact hh.elim
      | exact Except.noConfusion hh
      | (injection hh with hs; exact absurd hs (by decide))

/-! ## Claim C7 -/

/-- C7: for every engine kind other than "postgres" and "bigquery", each
of the three dispatch points — schema fetch, validation, execution —
returns the 400 error `Unsupported db_type: <dt>` and never invokes the
engine-specific code (the result is the same for arbitrary replacement
engine implementations, so no connection is attempted). -/
theorem C7_unsupported_engine_kind :
    ∀ (dt : String), dt ≠ "postgres" → dt ≠ "bigquery" →
    ∀ (cfg : DBConfig), cfg.db_type = some dt →
    ∀ (pgS pgS' bqS bqS' : DBConfig → Except HtErr String)
      (pgV pgV' bqV bqV' : String → DBConfig → Except HtErr (Bool × Option String))
      (ρ : Type) (pgF pgF' bqF bqF' : String → DBConfig → Except HtErr ρ)
      (q : String),
      get_db_schema pgS bqS cfg = .error ⟨400, "Unsupported db_type: " ++ dt⟩
      ∧ get_db_schema pgS bqS cfg = get_db_schema pgS' bqS' cfg
      ∧ validate_query pgV bqV q cfg = .error ⟨400, "Unsupported db_type: " ++ dt⟩
      ∧ validate_query pgV bqV q cfg = validate_query pgV' bqV' q cfg
      ∧ fetch_query_data pgF bqF q cfg = .error ⟨400, "Unsupported db_type: " ++ dt⟩
      ∧ fetch_query_data pgF bqF q cfg = fetch_query_data pgF' bqF' q cfg := by
  intro dt h1 h2 cfg hc pgS pgS' bqS bqS' pgV pgV' bqV bqV' ρ pgF pgF' bqF bqF' q
  have hdt : dbTypeOf cfg = dt := by rw [dbTypeOf, hc]; rfl
  refine ⟨?_, ?_, ?_, ?_, ?_, ?_⟩ <;>
    simp [get_db_schema, validate_query, fetch_query_data, hdt, h1, h2]

/-- C7 witness: the schema dispatcher applied at `db_type = "mysql"` with
concrete engine implementations. -/
theorem C7_witness :
    (("mysql" : String) ≠ "postgres" ∧ ("mysql" : String) ≠ "bigquery"
      ∧ DBConfig.db_type { db_type := some "mysql" } = some "mysql")
    ∧ get_db_schema (fun _ => .ok "pg-schema") (fun _ => .ok "bq-schema")
        { db_type := some "mysql" }
      = .error ⟨400, "Unsupported db_type: " ++ "mysql"⟩ :=
  ⟨⟨by decide, by decide, rfl⟩,
    (C7_unsupported_engine_kind "mysql" (by decide) (by decide)
      { db_type := some "mysql" } rfl
      (fun _ => .ok "pg-schema") (fun _ => .ok "pg-schema")
      (fun _ => .ok "bq-schema") (fun _ => .ok "bq-schema")
      (fun _ _ => .ok (true, none)) (fun _ _ => .ok (true, none))
      (fun _ _ => .ok (true, none)) (fun _ _ => .ok (true, none))
      (List Nat) (fun _ _ => .ok []) (fun _ _ => .ok [])
      (fun _ _ => .ok []) (fun _ _ => .ok []) "SELECT 1").1⟩

/-! ## Claim C3 -/

/-- C3 counterexample: an infrastructure failure (a non-`PostgresError`
exception from `asyncpg.connect`, e.g. a refused connection) does NOT
surface as an exception from `validate_postgres_query`: the function
catches it and returns normally with `(False, "PostgreSQL connection
error: ...")`, contradicting the claim that infrastructure failures throw
an exception carrying the distinguishable prefix. -/
theorem C3_counterexample :
    (validate_postgres_query (PgOutcome.otherError "connection refused")).isOk = true
    ∧ validate_postgres_query (PgOutcome.otherError "connection refused")
      = .ok (false, some ("PostgreSQL connection error: " ++ "connection refused")) :=
  ⟨rfl, rfl⟩

/-- C3 amended: both validators always return a boolean plus an optional
diagnostic and never throw — neither for an invalid query nor for an
infrastructure failure.  An invalid query (driver-classified error)
returns `(false, raw diagnostic)`; an infrastructure failure returns
`(false, diagnostic)` where the diagnostic — not an exception — carries
the distinguishable prefix ("PostgreSQL connection error: " /
"BigQuery error: "). -/
theorem C3_amended :
    (∀ o : PgOutcome, (validate_postgres_query o).isOk = true)
    ∧ validate_postgres_query PgOutcome.succeeds = .ok (true, none)
    ∧ (∀ m, validate_postgres_query (PgOutcome.pgError m) = .ok (false, some m))
    ∧ (∀ m, validate_postgres_query (PgOutcome.otherError m)
        = .ok (false, some ("PostgreSQL connection error: " ++ m)))
    ∧ (∀ o : BqOutcome, (validate_bigquery_query o).isOk = true)
    ∧ validate_bigquery_query BqOutcome.succeeds = .ok (true, none)
    ∧ (∀ m, validate_bigquery_query (BqOutcome.gcError m) = .ok (false, some m))
    ∧ (∀ m, validate_bigquery_query (BqOutcome.otherError m)
        = .ok (false, some ("BigQuery error: " ++ m))) := by
  refine ⟨fun o => ?_, rfl, fun m => rfl, fun m => rfl, fun o => ?_, rfl,
    fun m => rfl, fun m => rfl⟩ <;> cases o <;> rfl

/-! ## Claim C1 -/

/-- C1: in both `/generate_query` and `/fetch_data`, whenever the
validation step reports the generated query invalid, the handler fails
with the 400 error carrying the diagnostic and the rejected query, and the
execution step is never invoked (the `/fetch_data` result is independent
of the execution implementation); conversely `/fetch_data` succeeds only
if validation returned `true` for the returned query. -/
theorem C1_validation_gates_execution :
    (∀ (ρ : Type) (gs : DBConfig → Except HtErr String)
       (gq : String → String → String → Except HtErr String)
       (v : String → DBConfig → Except HtErr (Bool × Option String))
       (fq fq' : String → DBConfig → Except HtErr ρ) (inp : QueryInput)
       (schema sql : String) (em : Option String),
       schemaOf gs inp (effectiveConfig inp) = .ok schema →
       gq inp.natural_language_query schema (dbTypeOf (effectiveConfig inp)) = .ok sql →
       v sql (effectiveConfig inp) = .ok (false, em) →
       fetch_data gs gq v fq inp
           = .error ⟨400, "Error: " ++ optStr em ++ " | Generated query: " ++ sql⟩
         ∧ fetch_data gs gq v fq inp = fetch_data gs gq v fq' inp
         ∧ generate_query gs gq v inp
           = .error ⟨400, "Error: " ++ optStr em ++ " | Generated query: " ++ sql⟩)
    ∧ (∀ (ρ : Type) (gs : DBConfig → Except HtErr String)
         (gq : String → String → String → Except HtErr String)
         (v : String → DBConfig → Except HtErr (Bool × Option String))
         (fq : String → DBConfig → Except HtErr ρ) (inp : QueryInput)
         (sql : String) (data : ρ),
         fetch_data gs gq v fq inp = .ok (sql, data) →
         ∃ em, v sql (effectiveConfig inp) = .ok (true, em)) := by
  constructor
  · intro ρ gs gq v fq fq' inp schema sql em h1 h2 h3
    refine ⟨?_, ?_, ?_⟩ <;> simp [fetch_data, generate_query, h1, h2, h3]
  · intro ρ gs gq v fq inp sql data hok
    match hs : schemaOf gs inp (effectiveConfig inp) with
    | .error e =>
      simp only [fetch_data, hs] at hok
      exact Except.noConfusion hok
    | .ok schema =>
      simp only [fetch_data, hs] at hok
      match hg : gq inp.natural_language_query schema (dbTypeOf (effectiveConfig inp)) with
      | .error e =>
        simp only [hg] at hok
        exact Except.noConfusion hok
      | .ok sql0 =>
        simp only [hg] at hok
        match hv : v sql0 (effectiveConfig inp) with
        | .error e =>
          simp only [hv] at hok
          exact Except.noConfusion hok
        | .ok (b, em) =>
          simp only [hv] at hok
          cases b
          · simp at hok
          · rw [if_pos rfl] at hok
            match hf : fq sql0 (effectiveConfig inp) with
            | .error e =>
              simp only [hf] at hok
              exact Except.noConfusion hok
            | .ok data0 =>
              simp only [hf, Except.ok.injEq, Prod.mk.injEq] at hok
              exact ⟨em, hok.1 ▸ hv⟩

/-- C1 witness: the invalid-validation branch applied with concrete stage
functions whose validator reports `(false, "bad column")`. -/
theorem C1_witness :
    (schemaOf (fun _ => .ok "schema-text")
        { natural_language_query := "count the rows" }
        (effectiveConfig { natural_language_query := "count the rows" })
      = .ok "schema-text"
      ∧ ((fun (_ : String) (_ : String) (_ : String) =>
          (.ok "SELECT 1" : Except HtErr String)) "count the rows" "schema-text"
          (dbTypeOf (effectiveConfig { natural_language_query := "count the rows" }))
        = .ok "SELECT 1")
      ∧ ((fun (_ : String) (_ : DBConfig) =>
          (.ok (false, some "bad column") : Except HtErr (Bool × Option String)))
          "SELECT 1" (effectiveConfig { natural_language_query := "count the rows" })
        = .ok (false, some "bad column")))
    ∧ fetch_data (fun _ => .ok "schema-text")
        (fun _ _ _ => .ok "SELECT 1")
        (fun _ _ => .ok (false, some "bad column"))
        (fun _ _ => (.ok ([] : List Nat)))
        { natural_language_query := "count the rows" }
      = .error ⟨400, "Error: " ++ optStr (some "bad column")
          ++ " | Generated query: " ++ "SELECT 1"⟩ :=
  ⟨⟨rfl, rfl, rfl⟩,
    (C1_validation_gates_execution.1 (List Nat)
      (fun _ => .ok "schema-text") (fun _ _ _ => .ok "SELECT 1")
      (fun _ _ => .ok (false, some "bad column"))
      (fun _ _ => .ok []) (fun _ _ => .ok [])
      { natural_language_query := "count the rows" }
      "schema-text" "SELECT 1" (some "bad column") rfl rfl rfl).1⟩

/-! ## Claim C8 -/

/-- C8: a `text`, `item_name` or `query` field that is empty or
whitespace-only is rejected with the endpoint's 400 validation error; for
the scrapers and the search endpoint the result is the same error for
every URL-quoting, HTML-fetching, parsing or searching implementation, so
no upstream call is made. -/
theorem C8_blank_input_rejected :
    (∀ text : String, text.toList.all pyIsSpace = true →
      process_text text = .error ⟨400, "Text cannot be empty."⟩)
    ∧ (∀ (quote : String → String) (fh : String → Except HtErr String)
        (parse : String → List Product) (item : String),
        item.toList.all pyIsSpace = true →
        scrape_amazon quote fh parse item = .error ⟨400, "Item name cannot be empty."⟩)
    ∧ (∀ (quote : String → String) (fh : String → Except HtErr String)
        (parse : String → List Product) (item : String),
        item.toList.all pyIsSpace = true →
        scrape_walmart quote fh parse item = .error ⟨400, "Item name cannot be empty."⟩)
    ∧ (∀ (quote : String → String) (fh : String → Except HtErr String)
        (parse : String → List Product) (item : String),
        item.toList.all pyIsSpace = true →
        scrape_target quote fh parse item = .error ⟨400, "Item name cannot be empty."⟩)
    ∧ (∀ (sf : String → Int → List String) (q : String) (n : Int),
        q.toList.all pyIsSpace = true →
        web_search sf q n = .error ⟨400, "Search query cannot be empty."⟩) := by
  have hstrip : ∀ t : String, t.toList.all pyIsSpace = true → pyStripS t = "" := by
    intro t ht
    rw [pyStripS, stripStr_of_allWs ht]
    rfl
  refine ⟨?_, ?_, ?_, ?_, ?_⟩
  · intro text ht
    rw [process_text]
    rw [stripStr_of_allWs ht]
    rfl
  · intro quote fh parse item ht
    rw [scrape_amazon, hstrip item ht]
    rfl
  · intro quote fh parse item ht
    rw [scrape_walmart, hstrip item ht]
    rfl
  · intro quote fh parse item ht
    rw [scrape_target, hstrip item ht]
    rfl
  · intro sf q n ht
    rw [web_search, hstrip q ht]
    rfl

/-- C8 witness: the Amazon scraper rejects the whitespace-only item name
`"  "` for a concrete quoting/fetching/parsing triple. -/
theorem C8_witness :
    ("  ".toList.all pyIsSpace = true)
    ∧ scrape_amazon id (fun u => .ok u) (fun _ => []) "  "
      = .error ⟨400, "Item name cannot be empty."⟩ :=
  ⟨by decide, C8_blank_input_rejected.2.1 id (fun u => .ok u) (fun _ => []) "  " (by decide)⟩

/-! ## Claim C10 -/

/-- C10: `/search`'s `num_results` defaults to 5 when omitted; a value
outside [1, 20] is rejected with a 400 before any search (the result is an
error, identical for every search implementation); and a successful
response, given that the external search honours its requested bound on
the actual call, has at most 20 results. -/
theorem C10_num_results :
    numResultsOrDefault none = 5
    ∧ (∀ (sf sf' : String → Int → List String) (q : String) (n : Int),
        ¬ (1 ≤ n ∧ n ≤ 20) →
        (web_search sf q n).isOk = false ∧ web_search sf q n = web_search sf' q n)
    ∧ (∀ (sf : String → Int → List String) (q : String) (o : Option Int)
        (r : List (Nat × String)),
        ((sf (pyStripS q) (numResultsOrDefault o)).length : Int) ≤ numResultsOrDefault o →
        web_search sf q (numResultsOrDefault o) = .ok r → r.length ≤ 20) := by
  refine ⟨rfl, ?_, ?_⟩
  · intro sf sf' q n hn
    by_cases hq : pyStripS q = "" <;> simp [web_search, hq, hn, Except.isOk, Except.toBool]
  · intro sf q o r hbound hok
    rw [web_search] at hok
    by_cases hq : pyStripS q = ""
    · rw [if_pos hq] at hok
      exact Except.noConfusion hok
    · rw [if_neg hq] at hok
      by_cases hn : 1 ≤ numResultsOrDefault o ∧ numResultsOrDefault o ≤ 20
      · rw [if_neg (by simpa using hn)] at hok
        injection hok with hr
        have hlen : ∀ (i : Nat) (us : List String), (enumerate1 i us).length = us.length := by
          intro i us
          induction us generalizing i with
          | nil => rfl
          | cons u us ih => simp [enumerate1, ih]
        rw [← hr, hlen]
        omega
      · rw [if_pos (by simpa using hn)] at hok
        exact Except.noConfusion hok

/-- C10 witness: `num_results = 25` is rejected before any search, and the
bound conjunct applied at an omitted `num_results` with a two-result
search implementation. -/
theorem C10_witness :
    (¬ ((1 : Int) ≤ 25 ∧ (25 : Int) ≤ 20))
    ∧ (web_search (fun _ _ => ["https://a", "https://b"]) "lean" 25).isOk = false
    ∧ (((fun (_ : String) (_ : Int) => ["https://a", "https://b"]) (pyStripS "lean")
          (numResultsOrDefault none)).length : Int) ≤ numResultsOrDefault none :=
  ⟨by decide,
    (C10_num_results.2.1 (fun _ _ => ["https://a", "https://b"])
      (fun _ _ => ["https://a", "https://b"]) "lean" 25 (by decide)).1,
    by decide⟩

/-! ## Claim C6 -/

/-- C6: the `/process` emoji is the value of the first `EMOJI_MAP` entry
— in the table's declaration order morning, afternoon, evening, night,
hello, hi, hey — whose keyword occurs in the lowercased text: the choice
depends only on which keywords occur, never on where they occur (first
conjunct); any text containing "morning" gets the morning emoji because
"morning" is the first entry (second conjunct); in particular the two
orderings of a text containing both "hello" and "morning" get the morning
emoji (last two conjuncts). -/
theorem C6_emoji_declaration_order :
    (∀ low low' : List Char,
        (∀ kv ∈ EMOJI_MAP, isSubstr kv.1 low = isSubstr kv.1 low') →
        chosenEmoji low = chosenEmoji low')
    ∧ (∀ low : List Char, isSubstr "morning".toList low = true →
        chosenEmoji low = emMorning)
    ∧ process_text "hello, good morning"
      = .ok (("hello, good morning ".toList ++ emMorning).asString)
    ∧ process_text "morning! hello"
      = .ok (("morning! hello ".toList ++ emMorning).asString) := by
  have hcong : ∀ (l : List (List Char × List Char)) (p q : (List Char × List Char) → Bool),
      (∀ kv ∈ l, p kv = q kv) → l.find? p = l.find? q := by
    intro l p q h
    induction l with
    | nil => rfl
    | cons kv l ih =>
      have hkv : p kv = q kv := h kv (List.mem_cons_self kv l)
      cases hp : p kv
      · rw [List.find?_cons_of_neg _ (by simp [hp]),
          List.find?_cons_of_neg _ (by simp [← hkv, hp])]
        exact ih fun x hx => h x (List.mem_cons_of_mem kv hx)
      · rw [List.find?_cons_of_pos _ hp, List.find?_cons_of_pos _ (hkv ▸ hp)]
  refine ⟨?_, ?_, by decide, by decide⟩
  · intro low low' h
    rw [chosenEmoji, chosenEmoji,
      hcong EMOJI_MAP (fun kv => isSubstr kv.1 low) (fun kv => isSubstr kv.1 low') h]
  · intro low h
    rw [chosenEmoji, EMOJI_MAP, List.find?_cons_of_pos _ (by simpa using h)]
    rfl

/-- C6 witness: the first-entry conjunct applied at the lowercased text
"hi, good morning", and the match-set conjunct applied to two texts with
identical keyword occurrence sets. -/
theorem C6_witness :
    (isSubstr "morning".toList "hi, good morning".toList = true
      ∧ chosenEmoji "hi, good morning".toList = emMorning)
    ∧ ((∀ kv ∈ EMOJI_MAP, isSubstr kv.1 "xx hello morning".toList
          = isSubstr kv.1 "morning yy hello".toList)
      ∧ chosenEmoji "xx hello morning".toList = chosenEmoji "morning yy hello".toList) :=
  ⟨⟨by decide, C6_emoji_declaration_order.2.1 "hi, good morning".toList (by decide)⟩,
   ⟨by decide, C6_emoji_declaration_order.1 "xx hello morning".toList
      "morning yy hello".toList (by decide)⟩⟩

end ToolBox
